import Mathlib

/-!
Verification of the weekly 1-1 matching engine (cogs/one_on_ones.py and
db/actions.py) against its specification.

Modelling conventions:
- ISO-8601 timestamp and date strings are compared lexicographically in the
  source, which coincides with chronological order; we model them as Nat.
- Discord user ids, guild ids, thread ids are Nat.
- The SQL tables one_on_one_pool and one_on_one_matches become lists of
  records; the autoincrement primary key of one_on_one_matches is modelled
  with an explicit nextMatchId counter.
- Randomness (random.choice, random.shuffle) is modelled by explicit
  parameters: an index into the candidate list, and a shuffle function that
  theorems constrain to be a permutation.
- The Discord adapter (thread creation, message posts) is modelled by
  oracles returning Option values: some id on success, none when the call
  raises (Forbidden / HTTPException), matching the try blocks in the source.
-/

-- status strings stored in user1_status / user2_status (db/schema.py:
-- server_default "pending", written as "confirmed" / "declined")
inductive Status where
  | pending
  | confirmed
  | declined
  deriving DecidableEq, Repr

-- one row of the one_on_one_pool table (db/schema.py)
structure PoolMember where
  guildId : Nat
  userId : Nat
  joinedAt : Nat
  skipUntil : Option Nat
  satOutAt : Option Nat
  deriving DecidableEq, Repr

-- one row of the one_on_one_matches table (db/schema.py)
structure MatchRow where
  id : Nat
  guildId : Nat
  weekStart : Nat
  user1Id : Nat
  user2Id : Nat
  threadId : Option Nat
  user1Status : Status
  user2Status : Status
  reminderCount : Nat
  createdAt : Nat
  completedAt : Option Nat
  deriving DecidableEq, Repr

-- the persistent store
structure DB where
  pool : List PoolMember
  matchRows : List MatchRow
  nextMatchId : Nat
  deriving DecidableEq, Repr

-- SQL condition (skip_until == None) | (skip_until <= week_start); the SQL
-- comparison is NULL (false) when skip_until is NULL, covered by the first
-- disjunct (db/actions.py get_available_pool_members)
def notSkipping (p : PoolMember) (weekStart : Nat) : Bool :=
  match p.skipUntil with
  | none => true
  | some s => decide (s ≤ weekStart)

-- db/actions.py get_available_pool_members
def get_available_pool_members (db : DB) (guildId weekStart : Nat) : List Nat :=
  (db.pool.filter fun p => decide (p.guildId = guildId) && notSkipping p weekStart).map
    (fun p => p.userId)

-- db/actions.py mark_user_sat_out: UPDATE ... SET sat_out_at = utcnow()
def mark_user_sat_out (db : DB) (guildId userId now : Nat) : DB :=
  { db with pool := db.pool.map fun p =>
      if p.guildId = guildId ∧ p.userId = userId then { p with satOutAt := some now } else p }

-- SQL condition (sat_out_at != None) & (sat_out_at >= since)
def satOutRecently (p : PoolMember) (since : Nat) : Bool :=
  match p.satOutAt with
  | none => false
  | some t => decide (since ≤ t)

-- db/actions.py get_users_who_sat_out_recently
def get_users_who_sat_out_recently (db : DB) (guildId since : Nat) : List Nat :=
  (db.pool.filter fun p => decide (p.guildId = guildId) && satOutRecently p since).map
    (fun p => p.userId)

-- db/actions.py create_one_on_one_match: INSERT with server defaults
-- user1_status = user2_status = "pending", reminder_count = 0,
-- completed_at NULL, created_at = now
def create_one_on_one_match (db : DB) (guildId weekStart user1Id user2Id : Nat)
    (threadId : Option Nat) (now : Nat) : DB :=
  { db with
    matchRows := db.matchRows ++
      [{ id := db.nextMatchId, guildId := guildId, weekStart := weekStart,
         user1Id := user1Id, user2Id := user2Id, threadId := threadId,
         user1Status := Status.pending, user2Status := Status.pending,
         reminderCount := 0, createdAt := now, completedAt := none }],
    nextMatchId := db.nextMatchId + 1 }

-- first row matching an id (database.fetch_one)
def findId (l : List MatchRow) (matchId : Nat) : Option MatchRow :=
  l.find? fun m => decide (m.id = matchId)

-- db/actions.py get_match_by_id
def get_match_by_id (db : DB) (matchId : Nat) : Option MatchRow :=
  findId db.matchRows matchId

-- db/actions.py get_match_by_thread
def get_match_by_thread (db : DB) (threadId : Nat) : Option MatchRow :=
  db.matchRows.find? fun m => decide (m.threadId = some threadId)

-- UPDATE ... WHERE id = matchId applied to every row with that id
def setRow (matchId : Nat) (f : MatchRow → MatchRow) (l : List MatchRow) : List MatchRow :=
  l.map fun x => if x.id = matchId then f x else x

-- db/actions.py update_match_status: fetches the row, then updates the
-- side whose user id matches; does nothing for an unknown match or user
def update_match_status (db : DB) (matchId userId : Nat) (status : Status) : DB :=
  match get_match_by_id db matchId with
  | none => db
  | some m =>
    if m.user1Id = userId then
      { db with matchRows := setRow matchId (fun x => { x with user1Status := status }) db.matchRows }
    else if m.user2Id = userId then
      { db with matchRows := setRow matchId (fun x => { x with user2Status := status }) db.matchRows }
    else db

-- db/actions.py complete_match: unconditionally sets completed_at = utcnow()
def complete_match (db : DB) (matchId now : Nat) : DB :=
  { db with matchRows := setRow matchId (fun x => { x with completedAt := some now }) db.matchRows }

-- db/actions.py increment_match_reminder: reads the current count, writes
-- count + 1
def increment_match_reminder (db : DB) (matchId : Nat) : DB :=
  match get_match_by_id db matchId with
  | none => db
  | some m =>
    { db with matchRows :=
        setRow matchId (fun x => { x with reminderCount := m.reminderCount + 1 }) db.matchRows }

-- db/actions.py get_matches_needing_reminder
def get_matches_needing_reminder (db : DB) (guildId weekStart maxReminders : Nat) :
    List MatchRow :=
  db.matchRows.filter fun m => decide (m.guildId = guildId ∧ m.weekStart = weekStart ∧
    m.completedAt = none ∧ m.reminderCount < maxReminders ∧
    (m.user1Status = Status.pending ∨ m.user2Status = Status.pending))

-- rows for a guild and week key
def matchesThisWeek (db : DB) (guildId weekStart : Nat) : List MatchRow :=
  db.matchRows.filter fun m => decide (m.guildId = guildId ∧ m.weekStart = weekStart)

-- db/actions.py get_users_matched_this_week: both sides of every row for
-- the guild and week (returned as a set; we keep a list, membership is
-- what matters)
def get_users_matched_this_week (db : DB) (guildId weekStart : Nat) : List Nat :=
  (matchesThisWeek db guildId weekStart).flatMap fun m => [m.user1Id, m.user2Id]

-- db/actions.py get_user_partners_this_week
def get_user_partners_this_week (db : DB) (guildId userId weekStart : Nat) : List Nat :=
  ((matchesThisWeek db guildId weekStart).filter fun m =>
      decide (m.user1Id = userId ∨ m.user2Id = userId)).map
    fun m => if m.user1Id = userId then m.user2Id else m.user1Id

-- random.choice modelled as indexing with the index reduced mod the
-- length; only ever used on lists proved nonempty, matching the source
def listGetIdx (l : List Nat) (i : Nat) : Nat :=
  if h : l.length = 0 then 0
  else l.get ⟨i % l.length, Nat.mod_lt i (Nat.pos_of_ne_zero h)⟩

-- timedelta(weeks=4) in seconds (cogs/one_on_ones.py line 186)
def fourWeeksSecs : Nat := 4 * 7 * 24 * 60 * 60

-- cogs/one_on_ones.py line 190: eligible members who have not sat out in
-- the last four weeks
def sitOutCandidates (db : DB) (guildId now : Nat) (available : List Nat) : List Nat :=
  available.filter fun u =>
    decide (u ∉ get_users_who_sat_out_recently db guildId (now - fourWeeksSecs))

-- cogs/one_on_ones.py lines 185-194: prefer members who have not sat out
-- in the last four weeks, fall back to the whole list when all have
def sitOutChoice (db : DB) (guildId now choiceIdx : Nat) (available : List Nat) : Nat :=
  if sitOutCandidates db guildId now available = [] then listGetIdx available choiceIdx
  else listGetIdx (sitOutCandidates db guildId now available) choiceIdx

-- pool members not skipping this week minus members with any match row
-- this week (cogs/one_on_ones.py lines 171-177)
def eligibleMembers (db : DB) (guildId weekStart : Nat) : List Nat :=
  (get_available_pool_members db guildId weekStart).filter
    fun u => decide (u ∉ get_users_matched_this_week db guildId weekStart)

-- the Python pair comprehension over the shuffled list: consecutive
-- disjoint pairs (cogs/one_on_ones.py line 201; the list is always of
-- even length at that point)
def chunk2 : List Nat → List (Nat × Nat)
  | a :: b :: rest => (a, b) :: chunk2 rest
  | _ => []

-- the users appearing in a pair list, in order
def pairUsers : List (Nat × Nat) → List Nat
  | [] => []
  | (a, b) :: rest => a :: b :: pairUsers rest

-- the two sources of randomness of _run_matching_for_guild
structure PairingRng where
  sitChoice : Nat
  shuffle : List Nat → List Nat

-- the pure planning part of _run_matching_for_guild (lines 168-201):
-- eligibility, the two early-size guards, sit-out selection for an odd
-- count, shuffle and chunking; none when the run stops with 0 matches
def planMatching (db : DB) (guildId weekStart now : Nat) (rng : PairingRng) :
    Option (Option Nat × List (Nat × Nat)) :=
  if (get_available_pool_members db guildId weekStart).length < 2 then none
  else if (eligibleMembers db guildId weekStart).length < 2 then none
  else if (eligibleMembers db guildId weekStart).length % 2 = 1 then
    some (some (sitOutChoice db guildId now rng.sitChoice (eligibleMembers db guildId weekStart)),
      chunk2 (rng.shuffle ((eligibleMembers db guildId weekStart).erase
        (sitOutChoice db guildId now rng.sitChoice (eligibleMembers db guildId weekStart)))))
  else
    some (none, chunk2 (rng.shuffle (eligibleMembers db guildId weekStart)))

-- per-pair unit of work (lines 210-238): thread creation plus the posts
-- are the try block, collapsed into the createThread oracle; on success a
-- match row is persisted and counted, on failure (Forbidden/HTTPException)
-- the loop continues with the next pair
def processPairs (guildId weekStart now : Nat) (createThread : Nat × Nat → Option Nat) :
    List (Nat × Nat) → DB → Nat × DB
  | [], db => (0, db)
  | p :: rest, db =>
    match createThread p with
    | some tid =>
      let r := processPairs guildId weekStart now createThread rest
        (create_one_on_one_match db guildId weekStart p.1 p.2 (some tid) now)
      (r.1 + 1, r.2)
    | none => processPairs guildId weekStart now createThread rest db

-- line 197: marking of the sit-out, a no-op for an even count
def applySitOut (db : DB) (guildId now : Nat) : Option Nat → DB
  | some s => mark_user_sat_out db guildId s now
  | none => db

-- cogs/one_on_ones.py _run_matching_for_guild: the sit-out is marked
-- before the channel lookup; a missing channel returns 0 after that mark
def runMatchingForGuild (db : DB) (guildId weekStart now : Nat) (rng : PairingRng)
    (channel : Option Nat) (createThread : Nat × Nat → Option Nat) : Nat × DB :=
  match planMatching db guildId weekStart now rng with
  | none => (0, db)
  | some (sitOut, pairs) =>
    match channel with
    | none => (0, applySitOut db guildId now sitOut)
    | some _ =>
      processPairs guildId weekStart now createThread pairs (applySitOut db guildId now sitOut)

-- the adapter context of _attempt_rematch: the random choice index, the
-- guild lookup, the channel lookup and the thread-creation try block
structure RematchEnv where
  choiceIdx : Nat
  guildFound : Bool
  channel : Option Nat
  thread : Option Nat

inductive RematchOutcome where
  | noCandidate
  | noGuild
  | noChannel
  | threadFailed
  | created (partnerId : Nat)
  deriving DecidableEq, Repr

-- cogs/one_on_ones.py lines 381-384: candidate filter of _attempt_rematch
def rematchCandidates (db : DB) (guildId userId weekStart : Nat) : List Nat :=
  (get_available_pool_members db guildId weekStart).filter fun u =>
    decide (u ≠ userId ∧ u ∉ get_user_partners_this_week db guildId userId weekStart ∧
      u ∉ get_users_matched_this_week db guildId weekStart)

-- cogs/one_on_ones.py _attempt_rematch; the noCandidate outcome is the DM
-- branch (lines 386-396) and leaves the store untouched
def attemptRematch (db : DB) (guildId userId weekStart now : Nat) (env : RematchEnv) :
    RematchOutcome × DB :=
  if rematchCandidates db guildId userId weekStart = [] then (RematchOutcome.noCandidate, db)
  else if env.guildFound then
    match env.channel with
    | none => (RematchOutcome.noChannel, db)
    | some _ =>
      match env.thread with
      | none => (RematchOutcome.threadFailed, db)
      | some tid =>
        (RematchOutcome.created (listGetIdx (rematchCandidates db guildId userId weekStart) env.choiceIdx),
          create_one_on_one_match db guildId weekStart userId
            (listGetIdx (rematchCandidates db guildId userId weekStart) env.choiceIdx) (some tid) now)
  else (RematchOutcome.noGuild, db)

-- cogs/one_on_ones.py _handle_confirm: set the reacting side to
-- confirmed, re-read, and complete when both sides are confirmed (the
-- none branch of the re-read is unreachable when the match exists)
def handleConfirm (db : DB) (m : MatchRow) (userId now : Nat) : DB :=
  match get_match_by_id (update_match_status db m.id userId Status.confirmed) m.id with
  | none => update_match_status db m.id userId Status.confirmed
  | some um =>
    if um.user1Status = Status.confirmed ∧ um.user2Status = Status.confirmed then
      complete_match (update_match_status db m.id userId Status.confirmed) m.id now
    else update_match_status db m.id userId Status.confirmed

-- cogs/one_on_ones.py line 355: the partner of the reacting user
def declinePartner (m : MatchRow) (userId : Nat) : Nat :=
  if userId = m.user1Id then m.user2Id else m.user1Id

-- cogs/one_on_ones.py _handle_decline: set declined, complete
-- unconditionally, then attempt a rematch for the partner
def handleDecline (db : DB) (m : MatchRow) (userId guildId weekStart now : Nat)
    (env : RematchEnv) : DB :=
  (attemptRematch (complete_match (update_match_status db m.id userId Status.declined) m.id now)
    guildId (declinePartner m userId) weekStart now env).2

inductive Emoji where
  | check
  | cross
  | other
  deriving DecidableEq, Repr

-- cogs/one_on_ones.py on_raw_reaction_add: ignore the bot, ignore other
-- emoji, look the match up by the thread id, require the reacting user to
-- be one of the two participants, then dispatch on the emoji
def onRawReactionAdd (db : DB) (botId userId channelId : Nat) (emoji : Emoji)
    (guildId weekStart now : Nat) (env : RematchEnv) : DB :=
  if userId = botId then db
  else if emoji = Emoji.other then db
  else
    match get_match_by_thread db channelId with
    | none => db
    | some m =>
      if userId = m.user1Id ∨ userId = m.user2Id then
        match emoji with
        | Emoji.check => handleConfirm db m userId now
        | Emoji.cross => handleDecline db m userId guildId weekStart now env
        | Emoji.other => db
      else db

-- cogs/one_on_ones.py _send_reminder: thread lookup and the message post
-- are the postOk oracle; pending sides are read from the selected
-- snapshot; the count is incremented only after a successful post
def sendReminder (db : DB) (m : MatchRow) (postOk : Bool) : DB :=
  match m.threadId with
  | none => db
  | some _ =>
    if postOk then
      if m.user1Status = Status.pending ∨ m.user2Status = Status.pending then
        increment_match_reminder db m.id
      else db
    else db

-- the per-guild loop body of send_reminders (lines 271-273)
def remindLoop (postOk : Nat → Bool) : List MatchRow → Nat → DB → DB
  | [], _, db => db
  | m :: rest, i, db => remindLoop postOk rest (i + 1) (sendReminder db m (postOk i))

-- cogs/one_on_ones.py send_reminders for one guild, with the cap of 2
-- passed as max_reminders
def sendRemindersForGuild (db : DB) (guildId weekStart : Nat) (postOk : Nat → Bool) : DB :=
  remindLoop postOk (get_matches_needing_reminder db guildId weekStart 2) 0 db

-- the effect of update_match_status on the fetched row
def applyStatus (userId : Nat) (s : Status) (m : MatchRow) : MatchRow :=
  if m.user1Id = userId then { m with user1Status := s }
  else if m.user2Id = userId then { m with user2Status := s }
  else m

-- ----- concrete stores used by counterexamples and witnesses -----

-- a match completed by a decline of user 10; user 20 is still pending
def mC1 : MatchRow :=
  { id := 0, guildId := 1, weekStart := 100, user1Id := 10, user2Id := 20,
    threadId := some 99, user1Status := Status.declined, user2Status := Status.pending,
    reminderCount := 0, createdAt := 0, completedAt := some 5 }

def dbC1 : DB := { pool := [], matchRows := [mC1], nextMatchId := 1 }

-- a match where user 20 already confirmed and user 10 has not yet
def mC2 : MatchRow :=
  { id := 0, guildId := 1, weekStart := 100, user1Id := 10, user2Id := 20,
    threadId := some 99, user1Status := Status.pending, user2Status := Status.confirmed,
    reminderCount := 0, createdAt := 0, completedAt := none }

def dbC2 : DB := { pool := [], matchRows := [mC2], nextMatchId := 1 }

-- a pool member whose skip_until equals the current week key
def pC5 : PoolMember :=
  { guildId := 1, userId := 42, joinedAt := 0, skipUntil := some 100, satOutAt := none }

def dbC5 : DB := { pool := [pC5], matchRows := [], nextMatchId := 0 }

-- three pool members, none skipping; member 3 sat out recently
def dbPool3 : DB :=
  { pool :=
      [ { guildId := 1, userId := 1, joinedAt := 0, skipUntil := none, satOutAt := none },
        { guildId := 1, userId := 2, joinedAt := 0, skipUntil := none, satOutAt := none },
        { guildId := 1, userId := 3, joinedAt := 0, skipUntil := none,
          satOutAt := some 5000000 } ],
    matchRows := [], nextMatchId := 0 }

-- deterministic randomness: first candidate, identity shuffle
def rngId : PairingRng := { sitChoice := 0, shuffle := fun l => l }

-- two pool members, no matches yet: user 2 is a rematch candidate for 1
def dbPair : DB :=
  { pool :=
      [ { guildId := 9, userId := 1, joinedAt := 0, skipUntil := none, satOutAt := none },
        { guildId := 9, userId := 2, joinedAt := 0, skipUntil := none, satOutAt := none } ],
    matchRows := [], nextMatchId := 0 }

def envOk : RematchEnv := { choiceIdx := 0, guildFound := true, channel := some 7, thread := some 8 }

def envNone : RematchEnv := { choiceIdx := 0, guildFound := false, channel := none, thread := none }

-- a fresh pending match between users 10 and 20
def mC8 : MatchRow :=
  { id := 0, guildId := 1, weekStart := 100, user1Id := 10, user2Id := 20,
    threadId := some 99, user1Status := Status.pending, user2Status := Status.pending,
    reminderCount := 0, createdAt := 0, completedAt := none }

def dbC8 : DB := { pool := [], matchRows := [mC8], nextMatchId := 1 }

-- a pending match that has already received one reminder
def mC6 : MatchRow :=
  { id := 0, guildId := 1, weekStart := 100, user1Id := 10, user2Id := 20,
    threadId := some 99, user1Status := Status.pending, user2Status := Status.confirmed,
    reminderCount := 1, createdAt := 0, completedAt := none }

def dbC6 : DB := { pool := [], matchRows := [mC6], nextMatchId := 1 }

-- an empty store
def dbEmpty : DB := { pool := [], matchRows := [], nextMatchId := 0 }

-- a thread-creation oracle that always succeeds
def ctOk : Nat × Nat → Option Nat := fun p => some (1000 + p.1)

-- a thread-creation oracle failing exactly for the pair (1, 2)
def ctC9 : Nat × Nat → Option Nat := fun p => if p = (1, 2) then none else some 7

-- ----- helper lemmas -----

theorem listGetIdx_mem (l : List Nat) (i : Nat) (h : l ≠ []) : listGetIdx l i ∈ l := by
  unfold listGetIdx
  have hlen : l.length ≠ 0 := fun h0 => h (List.length_eq_zero.mp h0)
  rw [dif_neg hlen]
  exact l.get_mem _ _

theorem findId_setRow (l : List MatchRow) (mid : Nat) (f : MatchRow → MatchRow)
    (hf : ∀ x, (f x).id = x.id) :
    findId (setRow mid f l) mid = (findId l mid).map f := by
  induction l with
  | nil => rfl
  | cons a l ih =>
    by_cases h : a.id = mid
    · simp [setRow, findId, h, hf a]
    · simp only [setRow, List.map_cons, findId, if_neg h]
      rw [List.find?_cons_of_neg _ (by simpa using h), List.find?_cons_of_neg _ (by simpa using h)]
      exact ih

theorem findId_setRow_ne (l : List MatchRow) (mid mid2 : Nat) (f : MatchRow → MatchRow)
    (hf : ∀ x, (f x).id = x.id) (hne : mid2 ≠ mid) :
    findId (setRow mid f l) mid2 = findId l mid2 := by
  induction l with
  | nil => rfl
  | cons a l ih =>
    by_cases h : a.id = mid
    · have hfa : (f a).id = a.id := hf a
      have h1 : ¬ ((f a).id = mid2) := by rw [hfa, h]; exact fun hc => hne hc.symm
      have h2 : ¬ (a.id = mid2) := by rw [h]; exact fun hc => hne hc.symm
      simp only [setRow, List.map_cons, findId, if_pos h]
      rw [List.find?_cons_of_neg _ (by simpa using h1), List.find?_cons_of_neg _ (by simpa using h2)]
      exact ih
    · simp only [setRow, List.map_cons, findId, if_neg h]
      by_cases h2 : a.id = mid2
      · rw [List.find?_cons_of_pos _ (by simpa using h2), List.find?_cons_of_pos _ (by simpa using h2)]
      · rw [List.find?_cons_of_neg _ (by simpa using h2), List.find?_cons_of_neg _ (by simpa using h2)]
        exact ih

theorem findId_append_some (l l2 : List MatchRow) (mid : Nat) (x : MatchRow)
    (h : findId l mid = some x) : findId (l ++ l2) mid = some x := by
  unfold findId at *
  rw [List.find?_append, h]
  rfl

theorem findId_mem (l : List MatchRow) (mid : Nat) (x : MatchRow)
    (h : findId l mid = some x) : x ∈ l ∧ x.id = mid := by
  refine ⟨List.mem_of_find?_eq_some h, ?_⟩
  have := List.find?_some h
  simpa using this

theorem findId_of_mem_nodup (l : List MatchRow) (m : MatchRow)
    (hnd : (l.map MatchRow.id).Nodup) (hm : m ∈ l) : findId l m.id = some m := by
  induction l with
  | nil => cases hm
  | cons a l ih =>
    rcases List.mem_cons.mp hm with rfl | hm2
    · simp [findId]
    · have ha : ¬ (a.id = m.id) := by
        intro h
        have : a.id ∈ l.map MatchRow.id := by
          rw [h]; exact List.mem_map_of_mem MatchRow.id hm2
        exact (List.nodup_cons.mp (by simpa using hnd)).1 this
      unfold findId
      rw [List.find?_cons_of_neg _ (by simpa using ha)]
      exact ih (List.nodup_cons.mp (by simpa using hnd)).2 hm2

theorem get_update_match_status (db : DB) (mid uid : Nat) (s : Status) :
    get_match_by_id (update_match_status db mid uid s) mid =
      (get_match_by_id db mid).map (applyStatus uid s) := by
  unfold update_match_status
  cases hg : get_match_by_id db mid with
  | none => simp [hg]
  | some m =>
    by_cases h1 : m.user1Id = uid
    · simp only [if_pos h1]
      show findId (setRow mid (fun x => { x with user1Status := s }) db.matchRows) mid = _
      rw [findId_setRow db.matchRows mid (fun x => { x with user1Status := s }) (fun x => rfl)]
      show (findId db.matchRows mid).map _ = _
      rw [show findId db.matchRows mid = some m from hg]
      simp [applyStatus, h1]
    · by_cases h2 : m.user2Id = uid
      · simp only [if_neg h1, if_pos h2]
        show findId (setRow mid (fun x => { x with user2Status := s }) db.matchRows) mid = _
        rw [findId_setRow db.matchRows mid (fun x => { x with user2Status := s }) (fun x => rfl)]
        show (findId db.matchRows mid).map _ = _
        rw [show findId db.matchRows mid = some m from hg]
        simp [applyStatus, h1, h2]
      · simp [if_neg h1, if_neg h2, hg, applyStatus, h1, h2]

theorem get_complete_match (db : DB) (mid now : Nat) :
    get_match_by_id (complete_match db mid now) mid =
      (get_match_by_id db mid).map (fun x => { x with completedAt := some now }) := by
  unfold complete_match
  show findId (setRow mid (fun x => { x with completedAt := some now }) db.matchRows) mid = _
  rw [findId_setRow db.matchRows mid (fun x => { x with completedAt := some now }) (fun x => rfl)]
  rfl

theorem applyStatus_id (uid : Nat) (s : Status) (m : MatchRow) :
    (applyStatus uid s m).id = m.id := by
  unfold applyStatus
  by_cases h1 : m.user1Id = uid
  · simp [h1]
  · by_cases h2 : m.user2Id = uid <;> simp [h1, h2]

theorem mem_available_iff (db : DB) (g w u : Nat) :
    u ∈ get_available_pool_members db g w ↔
      ∃ p, p ∈ db.pool ∧ p.guildId = g ∧ p.userId = u ∧
        (p.skipUntil = none ∨ ∃ s, p.skipUntil = some s ∧ s ≤ w) := by
  unfold get_available_pool_members
  simp only [List.mem_map, List.mem_filter, Bool.and_eq_true, decide_eq_true_eq]
  constructor
  · rintro ⟨p, ⟨hp, hg, hskip⟩, rfl⟩
    refine ⟨p, hp, hg, rfl, ?_⟩
    unfold notSkipping at hskip
    cases h : p.skipUntil with
    | none => exact Or.inl rfl
    | some s =>
      rw [h] at hskip
      exact Or.inr ⟨s, rfl, by simpa using hskip⟩
  · rintro ⟨p, hp, hg, rfl, hskip⟩
    refine ⟨p, ⟨hp, hg, ?_⟩, rfl⟩
    unfold notSkipping
    rcases hskip with h | ⟨s, h, hs⟩
    · rw [h]
    · rw [h]
      simpa using hs

theorem sitOutChoice_mem (db : DB) (g now i : Nat) (avail : List Nat) (h : avail ≠ []) :
    sitOutChoice db g now i avail ∈ avail := by
  unfold sitOutChoice
  by_cases hc : sitOutCandidates db g now avail = []
  · rw [if_pos hc]
    exact listGetIdx_mem _ _ h
  · rw [if_neg hc]
    have hm := listGetIdx_mem _ i hc
    exact (List.mem_filter.mp hm).1

theorem sitOutChoice_not_recent (db : DB) (g now i : Nat) (avail : List Nat)
    (hc : sitOutCandidates db g now avail ≠ []) :
    sitOutChoice db g now i avail ∉
      get_users_who_sat_out_recently db g (now - fourWeeksSecs) := by
  unfold sitOutChoice
  rw [if_neg hc]
  have hm := listGetIdx_mem _ i hc
  have := (List.mem_filter.mp hm).2
  simpa using this

theorem eligible_sub_available (db : DB) (g w u : Nat) (h : u ∈ eligibleMembers db g w) :
    u ∈ get_available_pool_members db g w :=
  (List.mem_filter.mp h).1

theorem eligible_length_le (db : DB) (g w : Nat) :
    (eligibleMembers db g w).length ≤ (get_available_pool_members db g w).length :=
  List.length_filter_le _ _

theorem chunk2_length (l : List Nat) : (chunk2 l).length = l.length / 2 := by
  induction l using chunk2.induct with
  | case1 a b rest ih => simp [chunk2, ih]; omega
  | case2 l h => cases l with
    | nil => simp [chunk2]
    | cons a t =>
      cases t with
      | nil => simp [chunk2]
      | cons b r => exact absurd rfl (h a b r)

theorem pairUsers_chunk2 (l : List Nat) (h : l.length % 2 = 0) : pairUsers (chunk2 l) = l := by
  induction l using chunk2.induct with
  | case1 a b rest ih =>
    have : rest.length % 2 = 0 := by simp at h; omega
    simp [chunk2, pairUsers, ih this]
  | case2 l hl => cases l with
    | nil => simp [chunk2, pairUsers]
    | cons a t =>
      cases t with
      | nil => simp at h
      | cons b r => exact absurd rfl (hl a b r)

theorem planMatching_odd (db : DB) (g w now : Nat) (rng : PairingRng)
    (h2 : 2 ≤ (eligibleMembers db g w).length)
    (hodd : (eligibleMembers db g w).length % 2 = 1) :
    planMatching db g w now rng =
      some (some (sitOutChoice db g now rng.sitChoice (eligibleMembers db g w)),
        chunk2 (rng.shuffle ((eligibleMembers db g w).erase
          (sitOutChoice db g now rng.sitChoice (eligibleMembers db g w))))) := by
  unfold planMatching
  have hav : ¬ ((get_available_pool_members db g w).length < 2) := by
    have := eligible_length_le db g w
    omega
  rw [if_neg hav, if_neg (by omega), if_pos hodd]

theorem planMatching_even (db : DB) (g w now : Nat) (rng : PairingRng)
    (h2 : 2 ≤ (eligibleMembers db g w).length)
    (heven : (eligibleMembers db g w).length % 2 = 0) :
    planMatching db g w now rng =
      some (none, chunk2 (rng.shuffle (eligibleMembers db g w))) := by
  unfold planMatching
  have hav : ¬ ((get_available_pool_members db g w).length < 2) := by
    have := eligible_length_le db g w
    omega
  rw [if_neg hav, if_neg (by omega), if_neg (by omega)]

theorem processPairs_pool (g w now : Nat) (ct : Nat × Nat → Option Nat)
    (pairs : List (Nat × Nat)) (db : DB) :
    (processPairs g w now ct pairs db).2.pool = db.pool := by
  induction pairs generalizing db with
  | nil => rfl
  | cons p rest ih =>
    cases hc : ct p with
    | none => simp [processPairs, hc, ih]
    | some tid => simp [processPairs, hc, ih, create_one_on_one_match]

theorem mark_pool_update (db : DB) (g s now : Nat) (p : PoolMember)
    (hp : p ∈ db.pool) (hg : p.guildId = g) (hu : p.userId = s) :
    { p with satOutAt := some now } ∈ (mark_user_sat_out db g s now).pool := by
  unfold mark_user_sat_out
  have : (if p.guildId = g ∧ p.userId = s then { p with satOutAt := some now } else p) =
      { p with satOutAt := some now } := by
    rw [if_pos ⟨hg, hu⟩]
  rw [← this]
  exact List.mem_map_of_mem _ hp

theorem mem_rematchCandidates (db : DB) (g uid w u : Nat)
    (h : u ∈ rematchCandidates db g uid w) :
    u ∈ get_available_pool_members db g w ∧ u ≠ uid ∧
      u ∉ get_user_partners_this_week db g uid w ∧
      u ∉ get_users_matched_this_week db g w := by
  have := List.mem_filter.mp h
  refine ⟨this.1, ?_⟩
  have hp := this.2
  simpa using hp

-- ----- claim theorems -----

/-- C5 counterexample: a pool member whose skipUntil equals the current
week key is returned by get_available_pool_members, although the claim
says that a member with skipUntil greater than or equal to the week key
is excluded from the eligible set. -/
theorem skip_until_boundary_counterexample :
    pC5.skipUntil = some 100 ∧ (100 : Nat) ≤ 100 ∧
      42 ∈ get_available_pool_members dbC5 1 100 :=
  ⟨rfl, by decide, by decide⟩

/-- C5 (amended): a user is in the eligible pool for a week key exactly
when a pool row of the guild carries that user and its skipUntil is unset
or less than or equal to the week key; so only members with skipUntil
strictly greater than the week key are excluded, and a member whose
skipUntil equals the week key is still eligible. -/
theorem available_members_iff (db : DB) (g w u : Nat) :
    u ∈ get_available_pool_members db g w ↔
      ∃ p, p ∈ db.pool ∧ p.guildId = g ∧ p.userId = u ∧
        (p.skipUntil = none ∨ ∃ s, p.skipUntil = some s ∧ s ≤ w) :=
  mem_available_iff db g w u

/-- C4: when a sit-out must be selected, it is taken from the eligible
members whose lastSatOutAt is not within the last four weeks whenever
that preferred subset is nonempty, so a member who sat out recently is
never chosen while any other eligible member is available; the full
eligible list is used only when the preferred subset is empty. -/
theorem sit_out_prefers_not_recent (db : DB) (g now i : Nat) (avail : List Nat)
    (hne : avail ≠ []) :
    (sitOutCandidates db g now avail ≠ [] →
      sitOutChoice db g now i avail ∈ sitOutCandidates db g now avail ∧
      sitOutChoice db g now i avail ∉
        get_users_who_sat_out_recently db g (now - fourWeeksSecs)) ∧
    (sitOutCandidates db g now avail = [] → sitOutChoice db g now i avail ∈ avail) := by
  constructor
  · intro hc
    refine ⟨?_, sitOutChoice_not_recent db g now i avail hc⟩
    unfold sitOutChoice
    rw [if_neg hc]
    exact listGetIdx_mem _ _ hc
  · intro _
    exact sitOutChoice_mem db g now i avail hne

theorem sit_out_prefers_not_recent_witness :
    ([1, 2, 3] : List Nat) ≠ [] ∧
    sitOutCandidates dbPool3 1 7000000 [1, 2, 3] ≠ [] ∧
    sitOutChoice dbPool3 1 7000000 0 [1, 2, 3] ∈ sitOutCandidates dbPool3 1 7000000 [1, 2, 3] ∧
    sitOutChoice dbPool3 1 7000000 0 [1, 2, 3] ∉
      get_users_who_sat_out_recently dbPool3 1 (7000000 - fourWeeksSecs) :=
  ⟨by decide, by decide,
    ((sit_out_prefers_not_recent dbPool3 1 7000000 0 [1, 2, 3] (by decide)).1 (by decide)).1,
    ((sit_out_prefers_not_recent dbPool3 1 7000000 0 [1, 2, 3] (by decide)).1 (by decide)).2⟩

/-- C7: a rematch partner produced by attemptRematch is never the user
themself, never a user already on either side of a match row for this
week, and never a previous partner of the user this week; when no
candidate exists the outcome is the noCandidate notification and the
store is unchanged (no match row is created). -/
theorem rematch_partner_valid (db : DB) (g uid w now : Nat) (env : RematchEnv) :
    (∀ q, (attemptRematch db g uid w now env).1 = RematchOutcome.created q →
        q ≠ uid ∧ q ∉ get_user_partners_this_week db g uid w ∧
        q ∉ get_users_matched_this_week db g w ∧
        q ∈ get_available_pool_members db g w) ∧
    (rematchCandidates db g uid w = [] →
      attemptRematch db g uid w now env = (RematchOutcome.noCandidate, db)) := by
  constructor
  · intro q hq
    by_cases hc : rematchCandidates db g uid w = []
    · unfold attemptRematch at hq
      rw [if_pos hc] at hq
      cases hq
    · have hmem : listGetIdx (rematchCandidates db g uid w) env.choiceIdx ∈
          rematchCandidates db g uid w := listGetIdx_mem _ _ hc
      have hqeq : q = listGetIdx (rematchCandidates db g uid w) env.choiceIdx := by
        unfold attemptRematch at hq
        rw [if_neg hc] at hq
        cases hg : env.guildFound
        · rw [hg] at hq
          simp at hq
        · rw [hg] at hq
          cases hch : env.channel
          · rw [hch] at hq
            cases hq
          · rw [hch] at hq
            cases hth : env.thread
            · rw [hth] at hq
              cases hq
            · rw [hth] at hq
              have := congrArg id hq
              simp at hq
              omega
      subst hqeq
      have hprops := mem_rematchCandidates db g uid w _ hmem
      exact ⟨hprops.2.1, hprops.2.2.1, hprops.2.2.2, hprops.1⟩
  · intro hc
    unfold attemptRematch
    rw [if_pos hc]

theorem rematch_partner_valid_witness :
    (attemptRematch dbPair 9 1 100 5 envOk).1 = RematchOutcome.created 2 ∧
    2 ≠ 1 ∧ (2 : Nat) ∉ get_user_partners_this_week dbPair 9 1 100 ∧
    (2 : Nat) ∉ get_users_matched_this_week dbPair 9 100 ∧
    (2 : Nat) ∈ get_available_pool_members dbPair 9 100 :=
  ⟨by decide,
    ((rematch_partner_valid dbPair 9 1 100 5 envOk).1 2 (by decide)).1,
    ((rematch_partner_valid dbPair 9 1 100 5 envOk).1 2 (by decide)).2.1,
    ((rematch_partner_valid dbPair 9 1 100 5 envOk).1 2 (by decide)).2.2.1,
    ((rematch_partner_valid dbPair 9 1 100 5 envOk).1 2 (by decide)).2.2.2⟩

theorem processPairs_matchRows_mono (g w now : Nat) (ct : Nat × Nat → Option Nat)
    (pairs : List (Nat × Nat)) (db : DB) (x : MatchRow) (hx : x ∈ db.matchRows) :
    x ∈ (processPairs g w now ct pairs db).2.matchRows := by
  induction pairs generalizing db with
  | nil => exact hx
  | cons p rest ih =>
    cases hc : ct p with
    | none =>
      simp only [processPairs, hc]
      exact ih db hx
    | some tid =>
      simp only [processPairs, hc]
      exact ih _ (by
        unfold create_one_on_one_match
        exact List.mem_append_left _ hx)

/-- C9: when thread creation fails for a pair, no match row is persisted
for that pair, the pair is not counted in the returned number of created
matches, and the failure does not abort the remaining pairs: the count
equals the number of pairs whose thread creation succeeded, every row
added by the loop corresponds to a successful pair, and every successful
pair has a persisted row. -/
theorem thread_failure_isolated (g w now : Nat) (ct : Nat × Nat → Option Nat)
    (pairs : List (Nat × Nat)) (db : DB) :
    (processPairs g w now ct pairs db).1 = pairs.countP (fun p => (ct p).isSome) ∧
    (∀ x ∈ (processPairs g w now ct pairs db).2.matchRows,
        x ∈ db.matchRows ∨ ∃ p ∈ pairs, ∃ tid, ct p = some tid ∧
          x.user1Id = p.1 ∧ x.user2Id = p.2 ∧ x.threadId = some tid) ∧
    (∀ p ∈ pairs, ∀ tid, ct p = some tid →
        ∃ x ∈ (processPairs g w now ct pairs db).2.matchRows,
          x.user1Id = p.1 ∧ x.user2Id = p.2 ∧ x.threadId = some tid) := by
  induction pairs generalizing db with
  | nil =>
    refine ⟨rfl, ?_, ?_⟩
    · intro x hx
      exact Or.inl hx
    · intro p hp
      cases hp
  | cons p rest ih =>
    cases hc : ct p with
    | none =>
      obtain ⟨ih1, ih2, ih3⟩ := ih db
      refine ⟨?_, ?_, ?_⟩
      · simp only [processPairs, hc, ih1, List.countP_cons, hc]
        simp
      · intro x hx
        simp only [processPairs, hc] at hx
        rcases ih2 x hx with h | ⟨q, hq, tid, hqs⟩
        · exact Or.inl h
        · exact Or.inr ⟨q, List.mem_cons_of_mem _ hq, tid, hqs⟩
      · intro q hq tid htid
        rcases List.mem_cons.mp hq with rfl | hq2
        · rw [htid] at hc
          cases hc
        · simp only [processPairs, hc]
          exact ih3 q hq2 tid htid
    | some tid =>
      obtain ⟨ih1, ih2, ih3⟩ :=
        ih (create_one_on_one_match db g w p.1 p.2 (some tid) now)
      refine ⟨?_, ?_, ?_⟩
      · simp only [processPairs, hc, ih1, List.countP_cons, hc]
        simp
      · intro x hx
        simp only [processPairs, hc] at hx
        rcases ih2 x hx with h | ⟨q, hq, tid2, hqs⟩
        · unfold create_one_on_one_match at h
          rcases List.mem_append.mp h with h2 | h2
          · exact Or.inl h2
          · rcases List.mem_singleton.mp h2 with rfl
            exact Or.inr ⟨p, List.mem_cons_self _ _, tid, hc, rfl, rfl, rfl⟩
        · exact Or.inr ⟨q, List.mem_cons_of_mem _ hq, tid2, hqs⟩
      · intro q hq tid2 htid
        rcases List.mem_cons.mp hq with rfl | hq2
        · rw [htid] at hc
          injection hc with hsame
          subst hsame
          refine ⟨{ id := db.nextMatchId, guildId := g, weekStart := w,
                    user1Id := q.1, user2Id := q.2, threadId := some tid2,
                    user1Status := Status.pending, user2Status := Status.pending,
                    reminderCount := 0, createdAt := now, completedAt := none },
            ?_, rfl, rfl, rfl⟩
          simp only [processPairs, htid]
          apply processPairs_matchRows_mono
          unfold create_one_on_one_match
          exact List.mem_append_right _ (List.mem_singleton.mpr rfl)
        · simp only [processPairs, hc]
          exact ih3 q hq2 tid2 htid

theorem thread_failure_isolated_witness :
    (processPairs 1 100 5 ctC9 [(1, 2), (3, 4)] dbEmpty).1 =
      ([(1, 2), (3, 4)] : List (Nat × Nat)).countP (fun p => (ctC9 p).isSome) ∧
    (processPairs 1 100 5 ctC9 [(1, 2), (3, 4)] dbEmpty).1 = 1 ∧
    ∃ x ∈ (processPairs 1 100 5 ctC9 [(1, 2), (3, 4)] dbEmpty).2.matchRows,
      x.user1Id = 3 ∧ x.user2Id = 4 ∧ x.threadId = some 7 :=
  ⟨(thread_failure_isolated 1 100 5 ctC9 [(1, 2), (3, 4)] dbEmpty).1, by decide,
    (thread_failure_isolated 1 100 5 ctC9 [(1, 2), (3, 4)] dbEmpty).2.2
      (3, 4) (by decide) 7 (by decide)⟩

/-- C10: with an odd eligible count and a missing pairing channel, the
run returns 0 and creates no match rows, yet the store it returns is the
one where the sit-out user has already been marked: the sit-out's
lastSatOutAt has been durably updated before the channel check, so the
run is not atomic with respect to pool state on this failure path. -/
theorem sit_out_marked_despite_missing_channel (db : DB) (g w now : Nat) (rng : PairingRng)
    (ct : Nat × Nat → Option Nat)
    (h2 : 2 ≤ (eligibleMembers db g w).length)
    (hodd : (eligibleMembers db g w).length % 2 = 1) :
    (runMatchingForGuild db g w now rng none ct).1 = 0 ∧
    (runMatchingForGuild db g w now rng none ct).2.matchRows = db.matchRows ∧
    ∃ s, s ∈ eligibleMembers db g w ∧
      (runMatchingForGuild db g w now rng none ct).2 = mark_user_sat_out db g s now ∧
      ∃ p, p ∈ (runMatchingForGuild db g w now rng none ct).2.pool ∧
        p.guildId = g ∧ p.userId = s ∧ p.satOutAt = some now := by
  have hplan := planMatching_odd db g w now rng h2 hodd
  have hrun : runMatchingForGuild db g w now rng none ct =
      (0, mark_user_sat_out db g
        (sitOutChoice db g now rng.sitChoice (eligibleMembers db g w)) now) := by
    unfold runMatchingForGuild
    rw [hplan]
    rfl
  rw [hrun]
  have hne : eligibleMembers db g w ≠ [] := by
    intro h0
    rw [h0] at h2
    simp at h2
  have hmem := sitOutChoice_mem db g now rng.sitChoice (eligibleMembers db g w) hne
  refine ⟨rfl, rfl, sitOutChoice db g now rng.sitChoice (eligibleMembers db g w),
    hmem, rfl, ?_⟩
  have hav := eligible_sub_available db g w _ hmem
  rcases (mem_available_iff db g w _).mp hav with ⟨p0, hp0, hg0, hu0, _⟩
  exact ⟨{ p0 with satOutAt := some now },
    mark_pool_update db g _ now p0 hp0 hg0 hu0, hg0, hu0, rfl⟩

theorem sit_out_marked_despite_missing_channel_witness :
    2 ≤ (eligibleMembers dbPool3 1 100).length ∧
    (eligibleMembers dbPool3 1 100).length % 2 = 1 ∧
    ((runMatchingForGuild dbPool3 1 100 7000000 rngId none ctOk).1 = 0 ∧
      (runMatchingForGuild dbPool3 1 100 7000000 rngId none ctOk).2.matchRows =
        dbPool3.matchRows ∧
      ∃ s, s ∈ eligibleMembers dbPool3 1 100 ∧
        (runMatchingForGuild dbPool3 1 100 7000000 rngId none ctOk).2 =
          mark_user_sat_out dbPool3 1 s 7000000 ∧
        ∃ p, p ∈ (runMatchingForGuild dbPool3 1 100 7000000 rngId none ctOk).2.pool ∧
          p.guildId = 1 ∧ p.userId = s ∧ p.satOutAt = some 7000000) :=
  ⟨by decide, by decide,
    sit_out_marked_despite_missing_channel dbPool3 1 100 7000000 rngId ctOk
      (by decide) (by decide)⟩

/-- C3: for an eligible set of size at least two, a single pairing run
plans exactly n / 2 (floor) pairs in which no user appears twice; with an
even count there is no sit-out and the pairs partition the whole eligible
set; with an odd count exactly one sit-out is selected from the eligible
set, the sit-out appears in no pair, the pairs partition the rest, and
the sit-out's lastSatOutAt is updated in the pool the run persists. -/
theorem weekly_pairing_partition (db : DB) (g w now : Nat) (rng : PairingRng)
    (channel : Nat) (ct : Nat × Nat → Option Nat)
    (h2 : 2 ≤ (eligibleMembers db g w).length)
    (hnd : (eligibleMembers db g w).Nodup)
    (hsh : ∀ l, List.Perm (rng.shuffle l) l) :
    ∃ sitOut pairs, planMatching db g w now rng = some (sitOut, pairs) ∧
      pairs.length = (eligibleMembers db g w).length / 2 ∧
      (pairUsers pairs).Nodup ∧
      ((eligibleMembers db g w).length % 2 = 0 → sitOut = none ∧
        List.Perm (pairUsers pairs) (eligibleMembers db g w)) ∧
      ((eligibleMembers db g w).length % 2 = 1 →
        ∃ s, sitOut = some s ∧ s ∈ eligibleMembers db g w ∧ s ∉ pairUsers pairs ∧
          List.Perm (pairUsers pairs) ((eligibleMembers db g w).erase s) ∧
          ∃ p, p ∈ (runMatchingForGuild db g w now rng (some channel) ct).2.pool ∧
            p.guildId = g ∧ p.userId = s ∧ p.satOutAt = some now) := by
  by_cases hodd : (eligibleMembers db g w).length % 2 = 1
  · have hplan := planMatching_odd db g w now rng h2 hodd
    have hne : eligibleMembers db g w ≠ [] := by
      intro h0
      rw [h0] at h2
      simp at h2
    have hmem : sitOutChoice db g now rng.sitChoice (eligibleMembers db g w) ∈
        eligibleMembers db g w :=
      sitOutChoice_mem db g now rng.sitChoice (eligibleMembers db g w) hne
    have hlenE : ((eligibleMembers db g w).erase
        (sitOutChoice db g now rng.sitChoice (eligibleMembers db g w))).length =
        (eligibleMembers db g w).length - 1 := List.length_erase_of_mem hmem
    have hshp := hsh ((eligibleMembers db g w).erase
      (sitOutChoice db g now rng.sitChoice (eligibleMembers db g w)))
    have hlenS : (rng.shuffle ((eligibleMembers db g w).erase
        (sitOutChoice db g now rng.sitChoice (eligibleMembers db g w)))).length =
        (eligibleMembers db g w).length - 1 := by
      rw [hshp.length_eq, hlenE]
    have heven2 : (rng.shuffle ((eligibleMembers db g w).erase
        (sitOutChoice db g now rng.sitChoice (eligibleMembers db g w)))).length % 2 = 0 := by
      omega
    have hPU := pairUsers_chunk2 _ heven2
    refine ⟨some (sitOutChoice db g now rng.sitChoice (eligibleMembers db g w)),
      chunk2 (rng.shuffle ((eligibleMembers db g w).erase
        (sitOutChoice db g now rng.sitChoice (eligibleMembers db g w)))),
      hplan, ?_, ?_, ?_, ?_⟩
    · rw [chunk2_length, hlenS]
      omega
    · rw [hPU]
      exact hshp.nodup_iff.mpr (hnd.erase _)
    · intro h0
      omega
    · intro _
      refine ⟨sitOutChoice db g now rng.sitChoice (eligibleMembers db g w),
        rfl, hmem, ?_, ?_, ?_⟩
      · rw [hPU]
        intro hmem2
        have hin := hshp.mem_iff.mp hmem2
        have := (List.Nodup.mem_erase_iff hnd).mp hin
        exact this.1 rfl
      · rw [hPU]
        exact hshp
      · have hrun : (runMatchingForGuild db g w now rng (some channel) ct).2.pool =
            (mark_user_sat_out db g
              (sitOutChoice db g now rng.sitChoice (eligibleMembers db g w)) now).pool := by
          unfold runMatchingForGuild
          rw [hplan]
          show (processPairs g w now ct _
            (applySitOut db g now (some (sitOutChoice db g now rng.sitChoice
              (eligibleMembers db g w))))).2.pool = _
          rw [processPairs_pool]
          rfl
        have hav := eligible_sub_available db g w _ hmem
        rcases (mem_available_iff db g w _).mp hav with ⟨p0, hp0, hg0, hu0, _⟩
        refine ⟨{ p0 with satOutAt := some now }, ?_, hg0, hu0, rfl⟩
        rw [hrun]
        exact mark_pool_update db g _ now p0 hp0 hg0 hu0
  · have heven : (eligibleMembers db g w).length % 2 = 0 := by omega
    have hplan := planMatching_even db g w now rng h2 heven
    have hshp := hsh (eligibleMembers db g w)
    have hlenS := hshp.length_eq
    have hPU := pairUsers_chunk2 (rng.shuffle (eligibleMembers db g w))
      (by rw [hlenS]; exact heven)
    refine ⟨none, chunk2 (rng.shuffle (eligibleMembers db g w)), hplan, ?_, ?_, ?_, ?_⟩
    · rw [chunk2_length, hlenS]
    · rw [hPU]
      exact hshp.nodup_iff.mpr hnd
    · intro _
      refine ⟨rfl, ?_⟩
      rw [hPU]
      exact hshp
    · intro h1
      omega

theorem weekly_pairing_partition_witness :
    2 ≤ (eligibleMembers dbPool3 1 100).length ∧
    (eligibleMembers dbPool3 1 100).Nodup ∧
    ∃ sitOut pairs, planMatching dbPool3 1 100 7000000 rngId = some (sitOut, pairs) ∧
      pairs.length = (eligibleMembers dbPool3 1 100).length / 2 ∧
      (pairUsers pairs).Nodup ∧
      ((eligibleMembers dbPool3 1 100).length % 2 = 0 → sitOut = none ∧
        List.Perm (pairUsers pairs) (eligibleMembers dbPool3 1 100)) ∧
      ((eligibleMembers dbPool3 1 100).length % 2 = 1 →
        ∃ s, sitOut = some s ∧ s ∈ eligibleMembers dbPool3 1 100 ∧ s ∉ pairUsers pairs ∧
          List.Perm (pairUsers pairs) ((eligibleMembers dbPool3 1 100).erase s) ∧
          ∃ p, p ∈ (runMatchingForGuild dbPool3 1 100 7000000 rngId (some 50) ctOk).2.pool ∧
            p.guildId = 1 ∧ p.userId = s ∧ p.satOutAt = some 7000000) :=
  ⟨by decide, by decide,
    weekly_pairing_partition dbPool3 1 100 7000000 rngId 50 ctOk (by decide) (by decide)
      (fun l => List.Perm.refl l)⟩

theorem attemptRematch_preserves_found (db : DB) (g uid w now : Nat) (env : RematchEnv)
    (mid : Nat) (x : MatchRow) (h : get_match_by_id db mid = some x) :
    get_match_by_id (attemptRematch db g uid w now env).2 mid = some x := by
  unfold attemptRematch
  by_cases hc : rematchCandidates db g uid w = []
  · rw [if_pos hc]
    exact h
  · rw [if_neg hc]
    cases hg : env.guildFound
    · simp only [Bool.false_eq_true, if_neg]
      exact h
    · rw [if_pos rfl]
      cases hch : env.channel
      · exact h
      · cases hth : env.thread
        · exact h
        · show get_match_by_id (create_one_on_one_match db g w uid _ _ now) mid = some x
          unfold create_one_on_one_match get_match_by_id
          exact findId_append_some _ _ _ _ h

/-- C8: the decline handler sets the declining participant's status to
declined, sets completedAt unconditionally (no hypothesis on the
partner's status is needed), and then invokes the rematch attempt for the
partner of the decliner, which is never the decliner themself. -/
theorem decline_always_completes (db : DB) (m : MatchRow) (uid g w now : Nat)
    (env : RematchEnv)
    (hm : get_match_by_id db m.id = some m)
    (_huser : uid = m.user1Id ∨ uid = m.user2Id)
    (hab : m.user1Id ≠ m.user2Id) :
    handleDecline db m uid g w now env =
      (attemptRematch (complete_match (update_match_status db m.id uid Status.declined) m.id now)
        g (declinePartner m uid) w now env).2 ∧
    declinePartner m uid ≠ uid ∧
    ∃ m2, get_match_by_id (handleDecline db m uid g w now env) m.id = some m2 ∧
      m2.completedAt = some now ∧
      (uid = m.user1Id → m2.user1Status = Status.declined) ∧
      (uid = m.user2Id → uid ≠ m.user1Id → m2.user2Status = Status.declined) := by
  refine ⟨rfl, ?_, ?_⟩
  · unfold declinePartner
    by_cases h1 : uid = m.user1Id
    · rw [if_pos h1]
      intro hcon
      exact hab (hcon ▸ h1).symm
    · rw [if_neg h1]
      intro hcon
      exact h1 hcon.symm
  · have hup : get_match_by_id (update_match_status db m.id uid Status.declined) m.id =
        some (applyStatus uid Status.declined m) := by
      rw [get_update_match_status, hm]
      rfl
    have hcomp : get_match_by_id
        (complete_match (update_match_status db m.id uid Status.declined) m.id now) m.id =
        some { applyStatus uid Status.declined m with completedAt := some now } := by
      rw [get_complete_match, hup]
      rfl
    refine ⟨{ applyStatus uid Status.declined m with completedAt := some now }, ?_, rfl, ?_, ?_⟩
    · unfold handleDecline
      exact attemptRematch_preserves_found _ _ _ _ _ _ _ _ hcomp
    · intro h1
      show (applyStatus uid Status.declined m).user1Status = Status.declined
      unfold applyStatus
      rw [if_pos h1.symm]
    · intro h2 h1
      show (applyStatus uid Status.declined m).user2Status = Status.declined
      unfold applyStatus
      rw [if_neg (fun hc => h1 hc.symm), if_pos h2.symm]

theorem decline_always_completes_witness :
    get_match_by_id dbC8 mC8.id = some mC8 ∧ (10 = mC8.user1Id ∨ 10 = mC8.user2Id) ∧
    mC8.user1Id ≠ mC8.user2Id ∧
    (handleDecline dbC8 mC8 10 1 100 7 envNone =
      (attemptRematch (complete_match (update_match_status dbC8 mC8.id 10 Status.declined)
        mC8.id 7) 1 (declinePartner mC8 10) 100 7 envNone).2 ∧
    declinePartner mC8 10 ≠ 10 ∧
    ∃ m2, get_match_by_id (handleDecline dbC8 mC8 10 1 100 7 envNone) mC8.id = some m2 ∧
      m2.completedAt = some 7 ∧
      (10 = mC8.user1Id → m2.user1Status = Status.declined) ∧
      (10 = mC8.user2Id → 10 ≠ mC8.user1Id → m2.user2Status = Status.declined)) :=
  ⟨by decide, Or.inl (by decide), by decide,
    decline_always_completes dbC8 mC8 10 1 100 7 envNone (by decide)
      (Or.inl (by decide)) (by decide)⟩

/-- C1 counterexample: a completed match (completedAt set by an earlier
decline of user 10) still dispatches a later check reaction of the other
participant, whose status is mutated from pending to confirmed; so a
reaction event is dispatched without the match being non-completed and
completion is not terminal for the status fields. -/
theorem reaction_on_completed_match_counterexample :
    mC1.completedAt = some 5 ∧ mC1.user2Status = Status.pending ∧
    (get_match_by_id (onRawReactionAdd dbC1 999 20 99 Emoji.check 1 100 6 envNone) 0).map
        MatchRow.user2Status = some Status.confirmed :=
  ⟨rfl, rfl, by decide⟩

/-- C1 (amended): a reaction event is dispatched to the confirm and
decline handlers only if the reacting user is not the bot, the emoji is
one of the two markers, the channel id maps to an existing match row, and
the reacting user is one of the two participants; completion of the match
is not checked, so a reaction on a completed match is still dispatched
and can mutate its status fields. -/
theorem reaction_dispatch_requires_participant (db : DB) (botId uid ch g w now : Nat)
    (e : Emoji) (env : RematchEnv)
    (h : uid = botId ∨ e = Emoji.other ∨ get_match_by_thread db ch = none ∨
      ∃ m, get_match_by_thread db ch = some m ∧ ¬ (uid = m.user1Id ∨ uid = m.user2Id)) :
    onRawReactionAdd db botId uid ch e g w now env = db := by
  unfold onRawReactionAdd
  by_cases hb : uid = botId
  · rw [if_pos hb]
  · rw [if_neg hb]
    by_cases he : e = Emoji.other
    · rw [if_pos he]
    · rw [if_neg he]
      rcases h with h | h | h | ⟨m, hm, hnp⟩
      · exact absurd h hb
      · exact absurd h he
      · rw [h]
      · rw [hm]
        show (if uid = m.user1Id ∨ uid = m.user2Id then _ else db) = db
        rw [if_neg hnp]

theorem reaction_dispatch_requires_participant_witness :
    get_match_by_thread dbEmpty 99 = none ∧
    onRawReactionAdd dbEmpty 999 20 99 Emoji.check 1 100 6 envNone = dbEmpty :=
  ⟨by decide,
    reaction_dispatch_requires_participant dbEmpty 999 20 99 1 100 6 Emoji.check envNone
      (Or.inr (Or.inr (Or.inl (by decide))))⟩

theorem mem_setRow (l : List MatchRow) (mid : Nat) (f : MatchRow → MatchRow) (x : MatchRow)
    (hx : x ∈ setRow mid f l) : ∃ y ∈ l, x = y ∨ (x = f y ∧ y.id = mid) := by
  unfold setRow at hx
  rcases List.mem_map.mp hx with ⟨y, hy, hxy⟩
  by_cases h : y.id = mid
  · rw [if_pos h] at hxy
    exact ⟨y, hy, Or.inr ⟨hxy.symm, h⟩⟩
  · rw [if_neg h] at hxy
    exact ⟨y, hy, Or.inl hxy.symm⟩

theorem sendReminder_cases (db : DB) (m : MatchRow) (b : Bool) :
    sendReminder db m b = db ∨ sendReminder db m b = increment_match_reminder db m.id := by
  unfold sendReminder
  cases hth : m.threadId with
  | none => exact Or.inl rfl
  | some t =>
    cases b with
    | false => exact Or.inl (by simp)
    | true =>
      by_cases hp : m.user1Status = Status.pending ∨ m.user2Status = Status.pending
      · right
        simp [hp]
      · left
        simp [hp]

theorem get_increment_ne (db : DB) (mid mid2 : Nat) (hne : mid2 ≠ mid) :
    get_match_by_id (increment_match_reminder db mid) mid2 = get_match_by_id db mid2 := by
  unfold increment_match_reminder
  cases hg : get_match_by_id db mid with
  | none => rfl
  | some m =>
    show findId (setRow mid (fun x => { x with reminderCount := m.reminderCount + 1 })
      db.matchRows) mid2 = _
    rw [findId_setRow_ne db.matchRows mid mid2
      (fun x => { x with reminderCount := m.reminderCount + 1 }) (fun x => rfl) hne]
    rfl

theorem sendReminder_get_ne (db : DB) (m : MatchRow) (b : Bool) (mid2 : Nat)
    (hne : mid2 ≠ m.id) :
    get_match_by_id (sendReminder db m b) mid2 = get_match_by_id db mid2 := by
  rcases sendReminder_cases db m b with h | h
  · rw [h]
  · rw [h]
    exact get_increment_ne db m.id mid2 hne

theorem increment_cap (db : DB) (mid : Nat)
    (hall : ∀ x ∈ db.matchRows, x.reminderCount ≤ 2)
    (hrow : ∀ row, get_match_by_id db mid = some row → row.reminderCount < 2) :
    ∀ x ∈ (increment_match_reminder db mid).matchRows, x.reminderCount ≤ 2 := by
  unfold increment_match_reminder
  cases hg : get_match_by_id db mid with
  | none => exact hall
  | some m =>
    intro x hx
    have hx2 : x ∈ setRow mid (fun z => { z with reminderCount := m.reminderCount + 1 })
        db.matchRows := hx
    rcases mem_setRow _ _ _ _ hx2 with ⟨y, hy, hcase⟩
    rcases hcase with rfl | ⟨rfl, hid⟩
    · exact hall _ hy
    · have := hrow m hg
      show m.reminderCount + 1 ≤ 2
      omega

theorem remindLoop_cap (postOk : Nat → Bool) (sel : List MatchRow) (i : Nat) (db : DB)
    (hall : ∀ x ∈ db.matchRows, x.reminderCount ≤ 2)
    (hsel : ∀ m ∈ sel, ∃ row, get_match_by_id db m.id = some row ∧ row.reminderCount < 2)
    (hnd : (sel.map MatchRow.id).Nodup) :
    ∀ x ∈ (remindLoop postOk sel i db).matchRows, x.reminderCount ≤ 2 := by
  induction sel generalizing i db with
  | nil => exact hall
  | cons m rest ih =>
    have hnd2 : (∀ x ∈ rest, ¬ x.id = m.id) ∧ (List.map MatchRow.id rest).Nodup := by
      simpa using hnd
    show ∀ x ∈ (remindLoop postOk rest (i + 1) (sendReminder db m (postOk i))).matchRows,
      x.reminderCount ≤ 2
    apply ih
    · rcases sendReminder_cases db m (postOk i) with h | h
      · rw [h]
        exact hall
      · rw [h]
        apply increment_cap db m.id hall
        intro row hrow2
        rcases hsel m (List.mem_cons_self m rest) with ⟨row0, hrow0, hlt⟩
        rw [hrow0] at hrow2
        injection hrow2 with he
        subst he
        exact hlt
    · intro m2 hm2
      rcases hsel m2 (List.mem_cons_of_mem _ hm2) with ⟨row, hrow, hlt⟩
      refine ⟨row, ?_, hlt⟩
      rw [sendReminder_get_ne db m (postOk i) m2.id ?_]
      · exact hrow
      · intro he
        exact hnd2.1 m2 hm2 he
    · exact hnd2.2

theorem needing_reminder_props (db : DB) (g w cap : Nat) (m : MatchRow)
    (hm : m ∈ get_matches_needing_reminder db g w cap) :
    m ∈ db.matchRows ∧ m.guildId = g ∧ m.weekStart = w ∧ m.completedAt = none ∧
      m.reminderCount < cap ∧
      (m.user1Status = Status.pending ∨ m.user2Status = Status.pending) := by
  have h := List.mem_filter.mp hm
  refine ⟨h.1, ?_⟩
  have h2 := h.2
  simpa using h2

theorem needing_reminder_ids_nodup (db : DB) (g w cap : Nat)
    (hnd : (db.matchRows.map MatchRow.id).Nodup) :
    ((get_matches_needing_reminder db g w cap).map MatchRow.id).Nodup :=
  hnd.sublist (List.Sublist.map MatchRow.id (List.filter_sublist _))

/-- C6: the reminder scan selects exactly the matches of the week whose
completedAt is unset, whose reminderCount is under the cap of 2, and in
which at least one side is still pending (so completed matches and fully
confirmed matches are never reminded); after one scan every match still
has reminderCount at most 2; and a failed post never increments the
count. -/
theorem reminder_cap_respected (db : DB) (g w : Nat) (postOk : Nat → Bool)
    (hids : (db.matchRows.map MatchRow.id).Nodup)
    (hcap : ∀ x ∈ db.matchRows, x.reminderCount ≤ 2) :
    (∀ m ∈ get_matches_needing_reminder db g w 2,
        m.completedAt = none ∧ m.reminderCount < 2 ∧
        (m.user1Status = Status.pending ∨ m.user2Status = Status.pending)) ∧
    (∀ x ∈ (sendRemindersForGuild db g w postOk).matchRows, x.reminderCount ≤ 2) ∧
    (∀ m, sendReminder db m false = db) := by
  refine ⟨?_, ?_, ?_⟩
  · intro m hm
    have h := needing_reminder_props db g w 2 m hm
    exact ⟨h.2.2.2.1, h.2.2.2.2.1, h.2.2.2.2.2⟩
  · unfold sendRemindersForGuild
    apply remindLoop_cap postOk _ 0 db hcap
    · intro m hm
      have h := needing_reminder_props db g w 2 m hm
      exact ⟨m, findId_of_mem_nodup db.matchRows m hids h.1, h.2.2.2.2.1⟩
    · exact needing_reminder_ids_nodup db g w 2 hids
  · intro m
    unfold sendReminder
    cases m.threadId <;> simp

theorem reminder_cap_respected_witness :
    (dbC6.matchRows.map MatchRow.id).Nodup ∧
    (∀ x ∈ dbC6.matchRows, x.reminderCount ≤ 2) ∧
    ((∀ m ∈ get_matches_needing_reminder dbC6 1 100 2,
        m.completedAt = none ∧ m.reminderCount < 2 ∧
        (m.user1Status = Status.pending ∨ m.user2Status = Status.pending)) ∧
      (∀ x ∈ (sendRemindersForGuild dbC6 1 100 (fun _ => true)).matchRows,
        x.reminderCount ≤ 2) ∧
      (∀ m, sendReminder dbC6 m false = dbC6)) :=
  ⟨by decide, by decide,
    reminder_cap_respected dbC6 1 100 (fun _ => true) (by decide) (by decide)⟩

theorem applyStatus_sets (uid : Nat) (s : Status) (m : MatchRow) :
    ((applyStatus uid s m).user1Id = uid → (applyStatus uid s m).user1Status = s) ∧
    ((applyStatus uid s m).user1Id ≠ uid → (applyStatus uid s m).user2Id = uid →
      (applyStatus uid s m).user2Status = s) := by
  unfold applyStatus
  by_cases hu1 : m.user1Id = uid
  · rw [if_pos hu1]
    exact ⟨fun _ => rfl, fun hcon _ => absurd hu1 hcon⟩
  · rw [if_neg hu1]
    by_cases hu2 : m.user2Id = uid
    · rw [if_pos hu2]
      exact ⟨fun hcon => absurd hcon hu1, fun _ _ => rfl⟩
    · rw [if_neg hu2]
      exact ⟨fun hcon => absurd hcon hu1, fun _ hcon2 => absurd hcon2 hu2⟩

theorem applyStatus_fix (uid : Nat) (s : Status) (x : MatchRow)
    (h1 : x.user1Id = uid → x.user1Status = s)
    (h2 : x.user1Id ≠ uid → x.user2Id = uid → x.user2Status = s) :
    applyStatus uid s x = x := by
  unfold applyStatus
  by_cases hu1 : x.user1Id = uid
  · rw [if_pos hu1, ← h1 hu1]
  · rw [if_neg hu1]
    by_cases hu2 : x.user2Id = uid
    · rw [if_pos hu2, ← h2 hu1 hu2]
    · rw [if_neg hu2]

theorem get_handleConfirm_row (db : DB) (m mrow : MatchRow) (uid t : Nat)
    (hm : get_match_by_id db m.id = some mrow) :
    get_match_by_id (handleConfirm db m uid t) m.id =
      some (if (applyStatus uid Status.confirmed mrow).user1Status = Status.confirmed ∧
              (applyStatus uid Status.confirmed mrow).user2Status = Status.confirmed then
            { applyStatus uid Status.confirmed mrow with completedAt := some t }
          else applyStatus uid Status.confirmed mrow) := by
  have hup : get_match_by_id (update_match_status db m.id uid Status.confirmed) m.id =
      some (applyStatus uid Status.confirmed mrow) := by
    rw [get_update_match_status, hm]
    rfl
  unfold handleConfirm
  rw [hup]
  show get_match_by_id
      (if (applyStatus uid Status.confirmed mrow).user1Status = Status.confirmed ∧
          (applyStatus uid Status.confirmed mrow).user2Status = Status.confirmed then
        complete_match (update_match_status db m.id uid Status.confirmed) m.id t
      else update_match_status db m.id uid Status.confirmed) m.id = _
  by_cases hb : (applyStatus uid Status.confirmed mrow).user1Status = Status.confirmed ∧
      (applyStatus uid Status.confirmed mrow).user2Status = Status.confirmed
  · rw [if_pos hb, if_pos hb, get_complete_match, hup]
    rfl
  · rw [if_neg hb, if_neg hb]
    exact hup

/-- C2 counterexample: with the partner already confirmed, a first
confirm reaction of user 10 at time 1 completes the match with
completedAt 1; a second confirm by the same user at time 2 re-runs
complete_match and overwrites completedAt with 2, so the match record is
not exactly the state reached after the first application. -/
theorem confirm_twice_counterexample :
    get_match_by_id (handleConfirm (handleConfirm dbC2 mC2 10 1) mC2 10 2) 0 ≠
      get_match_by_id (handleConfirm dbC2 mC2 10 1) 0 := by
  decide

/-- C2 (amended): applying the confirm handler twice for the same user
leaves both status fields and reminderCount exactly as after the first
application; completedAt is also unchanged unless both sides are
confirmed after the first application, in which case the second
application overwrites completedAt with its own later timestamp (the two
states coincide exactly when the timestamps are equal). -/
theorem confirm_second_application (db : DB) (m : MatchRow) (uid t1 t2 : Nat)
    (hm : get_match_by_id db m.id = some m) :
    ∃ m1 m2, get_match_by_id (handleConfirm db m uid t1) m.id = some m1 ∧
      get_match_by_id (handleConfirm (handleConfirm db m uid t1) m uid t2) m.id = some m2 ∧
      m2.user1Status = m1.user1Status ∧ m2.user2Status = m1.user2Status ∧
      m2.reminderCount = m1.reminderCount ∧
      (m2.completedAt = m1.completedAt ∨
        (m1.completedAt = some t1 ∧ m2.completedAt = some t2)) := by
  have h1 := get_handleConfirm_row db m m uid t1 hm
  by_cases hb : (applyStatus uid Status.confirmed m).user1Status = Status.confirmed ∧
      (applyStatus uid Status.confirmed m).user2Status = Status.confirmed
  · rw [if_pos hb] at h1
    have h2 := get_handleConfirm_row (handleConfirm db m uid t1) m
      { applyStatus uid Status.confirmed m with completedAt := some t1 } uid t2 h1
    have hAA : applyStatus uid Status.confirmed
        { applyStatus uid Status.confirmed m with completedAt := some t1 } =
        { applyStatus uid Status.confirmed m with completedAt := some t1 } :=
      applyStatus_fix uid Status.confirmed _
        (applyStatus_sets uid Status.confirmed m).1
        (applyStatus_sets uid Status.confirmed m).2
    rw [hAA] at h2
    have hbx : ({ applyStatus uid Status.confirmed m with
        completedAt := some t1 } : MatchRow).user1Status = Status.confirmed ∧
        ({ applyStatus uid Status.confirmed m with
          completedAt := some t1 } : MatchRow).user2Status = Status.confirmed := hb
    rw [if_pos hbx] at h2
    exact ⟨{ applyStatus uid Status.confirmed m with completedAt := some t1 },
      { applyStatus uid Status.confirmed m with completedAt := some t2 },
      h1, h2, rfl, rfl, rfl, Or.inr ⟨rfl, rfl⟩⟩
  · rw [if_neg hb] at h1
    have h2 := get_handleConfirm_row (handleConfirm db m uid t1) m
      (applyStatus uid Status.confirmed m) uid t2 h1
    have hAA : applyStatus uid Status.confirmed (applyStatus uid Status.confirmed m) =
        applyStatus uid Status.confirmed m :=
      applyStatus_fix uid Status.confirmed _
        (applyStatus_sets uid Status.confirmed m).1
        (applyStatus_sets uid Status.confirmed m).2
    rw [hAA] at h2
    rw [if_neg hb] at h2
    exact ⟨applyStatus uid Status.confirmed m, applyStatus uid Status.confirmed m,
      h1, h2, rfl, rfl, rfl, Or.inl rfl⟩

theorem confirm_second_application_witness :
    get_match_by_id dbC2 mC2.id = some mC2 ∧
    ∃ m1 m2, get_match_by_id (handleConfirm dbC2 mC2 10 1) mC2.id = some m1 ∧
      get_match_by_id (handleConfirm (handleConfirm dbC2 mC2 10 1) mC2 10 2) mC2.id =
        some m2 ∧
      m2.user1Status = m1.user1Status ∧ m2.user2Status = m1.user2Status ∧
      m2.reminderCount = m1.reminderCount ∧
      (m2.completedAt = m1.completedAt ∨
        (m1.completedAt = some 1 ∧ m2.completedAt = some 2)) :=
  ⟨by decide, confirm_second_application dbC2 mC2 10 1 2 (by decide)⟩
